import Mathlib

/-!
A verification development for the webpage-analyser-server repository.

The Go sources under internal/services/analyzer.go are shallowly embedded:
pure helpers become Lean functions over `String`/`List`, the network and the
HTML parser are oracle inputs (each probe outcome, each URL-resolution
outcome and the parsed document are explicit parameters), and the concurrent
worker pool of `analyzeLinks` is modelled by its order-independent reduction
(the inaccessible counter is a commutative count over the admitted tasks,
exactly as the aggregation loop computes it).

Go byte-level string functions are modelled over `List Char`; all string
constants involved are ASCII, where the two agree.
-/

namespace WebpageAnalyser

/-! ### Go string primitives

`leadsWith pat s` models "pat occurs at the start of s"; `charsContain`
models Go `strings.Contains` (true for the empty pattern), used throughout
analyzer.go.  `strToLower`/`strToUpper` model `strings.ToLower`/`ToUpper`
(ASCII case mapping). -/

def leadsWith : List Char → List Char → Bool
  | [], _ => true
  | _ :: _, [] => false
  | p :: ps, c :: cs => p == c && leadsWith ps cs

def charsContain (pat : List Char) : List Char → Bool
  | [] => pat.isEmpty
  | c :: cs => leadsWith pat (c :: cs) || charsContain pat cs

/-- Models Go `strings.Contains s pat`. -/
def strContains (s pat : String) : Bool :=
  charsContain pat.toList s.toList

def strToLower (s : String) : String :=
  String.mk (s.toList.map Char.toLower)

def strToUpper (s : String) : String :=
  String.mk (s.toList.map Char.toUpper)

/-- The whitespace class of Go's regexp `\s`, namely `[\t\n\f\r ]`. -/
def isGoSpace (c : Char) : Bool :=
  c == ' ' || c == '\t' || c == '\n' || c == '\x0c' || c == '\r'

/-! ### Link analysis (analyzer.go, `analyzeLinks`, lines 303-378)

An `Anchor` is one `a[href]` element of the document together with the
outcome of `baseURL.Parse(href)` (Go net/url resolution is external, so the
resolved absolute URL string and its host are oracle data; `none` models a
resolution error, in which case the code `return`s out of the callback). -/

structure Resolved where
  urlStr : String
  host : String
deriving DecidableEq, Repr

structure Anchor where
  href : String
  resolved : Option Resolved
deriving DecidableEq, Repr

structure LinkAnalysis where
  internal : Nat
  external : Nat
  inaccessible : Nat
deriving DecidableEq, Repr

/-- Models the Go struct `linkCheckRequest`. -/
structure LinkCheckRequest where
  url : String
  isInternal : Bool
deriving DecidableEq, Repr

/-- Accumulator of the `doc.Find("a[href]").Each` collection loop
(analyzer.go lines 315-334): the running internal/external counters and the
two slices built by `append`. -/
structure Collected where
  internal : Nat
  external : Nat
  internalLinks : List String
  externalLinks : List String
deriving DecidableEq, Repr

/-- One iteration of the collection callback (analyzer.go lines 319-334). -/
def collectStep (baseHost : String) (st : Collected) (a : Anchor) : Collected :=
  match a.resolved with
  | none => st
  | some r =>
    if r.host == baseHost then
      { st with internal := st.internal + 1, internalLinks := st.internalLinks ++ [r.urlStr] }
    else
      { st with external := st.external + 1, externalLinks := st.externalLinks ++ [r.urlStr] }

def collectLinks (baseHost : String) (anchors : List Anchor) : Collected :=
  anchors.foldl (collectStep baseHost) ⟨0, 0, [], []⟩

def internalLinksOf (baseHost : String) (anchors : List Anchor) : List String :=
  (collectLinks baseHost anchors).internalLinks

def externalLinksOf (baseHost : String) (anchors : List Anchor) : List String :=
  (collectLinks baseHost anchors).externalLinks

/-- The external-link admission loop (analyzer.go lines 340-348): walk the
external links, stopping as soon as `linksToCheck >= maxLinksToCheck`;
returns the enqueued tasks and the final `linksToCheck` counter. -/
def admitExternal (maxLinks : Nat) : List String → Nat → List LinkCheckRequest × Nat
  | [], n => ([], n)
  | l :: ls, n =>
    if n ≥ maxLinks then ([], n)
    else
      let rest := admitExternal maxLinks ls (n + 1)
      (⟨l, false⟩ :: rest.1, rest.2)

/-- The full admission stage of `analyzeLinks` (lines 336-361): external
links first, then internal links up to the remaining capacity
(`internalLinksToCheck` is clamped exactly as in the source). -/
def admittedTasks (baseHost : String) (anchors : List Anchor) (maxLinks : Nat) :
    List LinkCheckRequest :=
  let c := collectLinks baseHost anchors
  let ext := admitExternal maxLinks c.externalLinks 0
  let remainingCapacity := maxLinks - ext.2
  let internalLinksToCheck :=
    if c.internalLinks.length > remainingCapacity then remainingCapacity
    else c.internalLinks.length
  ext.1 ++ (c.internalLinks.take internalLinksToCheck).map (fun l => ⟨l, true⟩)

/-- `analyzeLinks` (analyzer.go lines 303-378).  `probe url isInternal` is
the oracle for `checkLinkWithTimeout`; the worker pool's result channel is
reduced by counting `false` outcomes, which is order independent, so the
concurrent aggregation loop (lines 370-375) is modelled by the count over
the admitted tasks. -/
def analyzeLinks (baseHost : String) (anchors : List Anchor) (maxLinks : Nat)
    (probe : String → Bool → Bool) : LinkAnalysis :=
  let c := collectLinks baseHost anchors
  { internal := c.internal
    external := c.external
    inaccessible :=
      ((admittedTasks baseHost anchors maxLinks).filter
        (fun t => !(probe t.url t.isInternal))).length }

/-- The resolved absolute URL of an anchor when it is internal (host equal
to the base host), in the sense of the collection loop's classification. -/
def internalURLOf (baseHost : String) (a : Anchor) : Option String :=
  match a.resolved with
  | none => none
  | some r => if r.host == baseHost then some r.urlStr else none

/-- The resolved absolute URL of an anchor when it is external. -/
def externalURLOf (baseHost : String) (a : Anchor) : Option String :=
  match a.resolved with
  | none => none
  | some r => if r.host == baseHost then none else some r.urlStr

/-! #### Link-analysis lemmas -/

lemma collectStep_none {a : Anchor} (baseHost : String) (st : Collected)
    (ha : a.resolved = none) : collectStep baseHost st a = st := by
  simp [collectStep, ha]

lemma collectStep_internal {a : Anchor} {r : Resolved} (baseHost : String) (st : Collected)
    (ha : a.resolved = some r) (hh : (r.host == baseHost) = true) :
    collectStep baseHost st a
      = { st with internal := st.internal + 1,
                  internalLinks := st.internalLinks ++ [r.urlStr] } := by
  simp [collectStep, ha, hh]

lemma collectStep_external {a : Anchor} {r : Resolved} (baseHost : String) (st : Collected)
    (ha : a.resolved = some r) (hh : ¬ (r.host == baseHost) = true) :
    collectStep baseHost st a
      = { st with external := st.external + 1,
                  externalLinks := st.externalLinks ++ [r.urlStr] } := by
  simp [collectStep, ha, hh]

lemma collect_foldl_spec (baseHost : String) (anchors : List Anchor) :
    ∀ st : Collected,
      (anchors.foldl (collectStep baseHost) st).internal
          = st.internal + (anchors.filterMap (internalURLOf baseHost)).length ∧
      (anchors.foldl (collectStep baseHost) st).external
          = st.external + (anchors.filterMap (externalURLOf baseHost)).length ∧
      (anchors.foldl (collectStep baseHost) st).internalLinks
          = st.internalLinks ++ anchors.filterMap (internalURLOf baseHost) ∧
      (anchors.foldl (collectStep baseHost) st).externalLinks
          = st.externalLinks ++ anchors.filterMap (externalURLOf baseHost) := by
  induction anchors with
  | nil => intro st; simp
  | cons a rest ih =>
    intro st
    rw [List.foldl_cons]
    rcases ha : a.resolved with _ | r
    · rw [collectStep_none baseHost st ha]
      rcases ih st with ⟨g1, g2, g3, g4⟩
      refine ⟨?_, ?_, ?_, ?_⟩ <;>
        simp [g1, g2, g3, g4, List.filterMap_cons, internalURLOf, externalURLOf, ha]
    · by_cases hh : (r.host == baseHost) = true
      · rw [collectStep_internal baseHost st ha hh]
        have g := ih ⟨st.internal + 1, st.external, st.internalLinks ++ [r.urlStr], st.externalLinks⟩
        obtain ⟨g1, g2, g3, g4⟩ := g
        refine ⟨?_, ?_, ?_, ?_⟩ <;>
          simp [g1, g2, g3, g4, List.filterMap_cons, internalURLOf, externalURLOf, ha, hh]
        all_goals omega
      · rw [collectStep_external baseHost st ha hh]
        have g := ih ⟨st.internal, st.external + 1, st.internalLinks, st.externalLinks ++ [r.urlStr]⟩
        obtain ⟨g1, g2, g3, g4⟩ := g
        refine ⟨?_, ?_, ?_, ?_⟩ <;>
          simp [g1, g2, g3, g4, List.filterMap_cons, internalURLOf, externalURLOf, ha, hh]
        all_goals omega

lemma internalLinksOf_eq (baseHost : String) (anchors : List Anchor) :
    internalLinksOf baseHost anchors = anchors.filterMap (internalURLOf baseHost) := by
  have h := (collect_foldl_spec baseHost anchors ⟨0, 0, [], []⟩).2.2.1
  simpa [internalLinksOf, collectLinks] using h

lemma externalLinksOf_eq (baseHost : String) (anchors : List Anchor) :
    externalLinksOf baseHost anchors = anchors.filterMap (externalURLOf baseHost) := by
  have h := (collect_foldl_spec baseHost anchors ⟨0, 0, [], []⟩).2.2.2
  simpa [externalLinksOf, collectLinks] using h

lemma admitExternal_spec (maxLinks : Nat) (ls : List String) :
    ∀ n, n ≤ maxLinks →
      admitExternal maxLinks ls n
        = ((ls.take (maxLinks - n)).map (fun l => (⟨l, false⟩ : LinkCheckRequest)),
           n + min ls.length (maxLinks - n)) := by
  induction ls with
  | nil => intro n _; simp [admitExternal]
  | cons l ls ih =>
    intro n hn
    by_cases h : n ≥ maxLinks
    · have : maxLinks - n = 0 := by omega
      simp [admitExternal, h, this]
    · have h1 : n + 1 ≤ maxLinks := by omega
      have h2 : maxLinks - n = (maxLinks - (n + 1)) + 1 := by omega
      simp only [admitExternal, if_neg h]
      rw [ih (n + 1) h1, h2]
      simp only [List.take_succ_cons, List.map_cons, List.length_cons]
      refine Prod.ext rfl ?_
      simp only [Nat.min_def]
      split <;> split <;> omega

lemma take_clamp {α : Type} (l : List α) (r : Nat) :
    l.take (if l.length > r then r else l.length) = l.take r := by
  by_cases h : l.length > r
  · simp [h]
  · simp only [h, if_neg, if_false]
    rw [List.take_length, List.take_of_length_le (by omega)]

lemma length_filter_map_mk (probe : String → Bool → Bool) (b : Bool) (l : List String) :
    ((l.map (fun s => (⟨s, b⟩ : LinkCheckRequest))).filter
        (fun t => !(probe t.url t.isInternal))).length
      = (l.filter (fun s => !(probe s b))).length := by
  induction l with
  | nil => simp
  | cons x xs ih => by_cases h : probe x b <;> simp [h, ih]

lemma admittedTasks_take (baseHost : String) (anchors : List Anchor) (B : Nat) :
    admittedTasks baseHost anchors B
      = ((externalLinksOf baseHost anchors).take B).map
          (fun l => (⟨l, false⟩ : LinkCheckRequest))
        ++ ((internalLinksOf baseHost anchors).take
              (B - ((externalLinksOf baseHost anchors).take B).length)).map
            (fun l => (⟨l, true⟩ : LinkCheckRequest)) := by
  simp only [admittedTasks]
  rw [admitExternal_spec B (collectLinks baseHost anchors).externalLinks 0 (Nat.zero_le B)]
  simp only [Nat.sub_zero, Nat.zero_add, externalLinksOf, internalLinksOf, List.length_take]
  rw [take_clamp,
    Nat.min_comm (collectLinks baseHost anchors).externalLinks.length B]

lemma counts_partition (baseHost : String) (anchors : List Anchor) :
    (anchors.filterMap (internalURLOf baseHost)).length
      + (anchors.filterMap (externalURLOf baseHost)).length
      = (anchors.filter (fun a => a.resolved.isSome)).length := by
  induction anchors with
  | nil => simp
  | cons a rest ih =>
    rcases ha : a.resolved with _ | r
    · simp [List.filterMap_cons, List.filter_cons, internalURLOf, externalURLOf, ha, ih]
    · by_cases hh : (r.host == baseHost) = true <;>
        simp [List.filterMap_cons, List.filter_cons, internalURLOf, externalURLOf, ha, hh]
      all_goals omega

/-! #### Claim theorems for the link prober -/

/-- C1: link-probe admission follows the priority/budget policy.  With
external and internal links collected in document order (the two `filterMap`
equations), the admitted tasks are exactly the first `B` external links
followed by the first `B − admitted_external` internal links, and the
inaccessible count is computed over precisely those admitted tasks, so
internal links beyond the remaining budget are never probed and contribute
nothing to the inaccessible count. -/
theorem link_probe_admission_policy (baseHost : String) (anchors : List Anchor) (B : Nat)
    (probe : String → Bool → Bool) :
    externalLinksOf baseHost anchors = anchors.filterMap (externalURLOf baseHost) ∧
    internalLinksOf baseHost anchors = anchors.filterMap (internalURLOf baseHost) ∧
    admittedTasks baseHost anchors B
      = ((externalLinksOf baseHost anchors).take B).map
          (fun l => (⟨l, false⟩ : LinkCheckRequest))
        ++ ((internalLinksOf baseHost anchors).take
              (B - ((externalLinksOf baseHost anchors).take B).length)).map
            (fun l => (⟨l, true⟩ : LinkCheckRequest)) ∧
    (analyzeLinks baseHost anchors B probe).inaccessible
      = (((externalLinksOf baseHost anchors).take B).filter
            (fun l => !(probe l false))).length
        + (((internalLinksOf baseHost anchors).take
              (B - ((externalLinksOf baseHost anchors).take B).length)).filter
            (fun l => !(probe l true))).length := by
  refine ⟨externalLinksOf_eq baseHost anchors, internalLinksOf_eq baseHost anchors,
    admittedTasks_take baseHost anchors B, ?_⟩
  show ((admittedTasks baseHost anchors B).filter _).length = _
  rw [admittedTasks_take baseHost anchors B, List.filter_append, List.length_append,
    length_filter_map_mk probe false, length_filter_map_mk probe true]

/-- C2: `links.inaccessible` is at most the number of admitted (probed)
tasks, which is at most the configured link budget `B`; as a `Nat` (the Go
counter is only ever incremented from zero) it is also never negative. -/
theorem inaccessible_le_admitted_le_budget (baseHost : String) (anchors : List Anchor)
    (B : Nat) (probe : String → Bool → Bool) :
    (analyzeLinks baseHost anchors B probe).inaccessible
        ≤ (admittedTasks baseHost anchors B).length ∧
    (admittedTasks baseHost anchors B).length ≤ B ∧
    0 ≤ (analyzeLinks baseHost anchors B probe).inaccessible := by
  refine ⟨List.length_filter_le .., ?_, Nat.zero_le _⟩
  rw [admittedTasks_take baseHost anchors B]
  simp only [List.length_append, List.length_map, List.length_take]
  omega

/-- C5: `links.internal + links.external` equals the number of hyperlink
href targets that resolve successfully against the base URL; hrefs that
fail resolution are counted in neither bucket. -/
theorem internal_external_counts_resolved (baseHost : String) (anchors : List Anchor)
    (B : Nat) (probe : String → Bool → Bool) :
    (analyzeLinks baseHost anchors B probe).internal
        + (analyzeLinks baseHost anchors B probe).external
      = (anchors.filter (fun a => a.resolved.isSome)).length := by
  have h := collect_foldl_spec baseHost anchors ⟨0, 0, [], []⟩
  show (collectLinks baseHost anchors).internal + (collectLinks baseHost anchors).external = _
  rw [show collectLinks baseHost anchors = anchors.foldl (collectStep baseHost) ⟨0, 0, [], []⟩
      from rfl, h.1, h.2.1]
  simpa using counts_partition baseHost anchors

/-! ### Markup version classifier (analyzer.go lines 207-301, constants.go lines 110-149)

`extractDOCTYPE` models the three anchored regular expressions of
constants.go applied in `extractDOCTYPE` (analyzer.go lines 259-278):
strip an XML declaration, strip one leading single-line comment, extract
the first `<!DOCTYPE ...>` token, uppercase it.  Case mapping is the ASCII
one; regexp `\s` is exactly `[\t\n\f\r ]` as in Go's RE2. -/

def HTMLVersion5 : String := "HTML5"
def HTMLVersionXHTML11 : String := "XHTML 1.1"
def HTMLVersionXHTML10 : String := "XHTML 1.0"
def HTMLVersionXHTML10Strict : String := "XHTML 1.0 Strict"
def HTMLVersionXHTML10Transitional : String := "XHTML 1.0 Transitional"
def HTMLVersionXHTML10Frameset : String := "XHTML 1.0 Frameset"
def HTMLVersionHTML401 : String := "HTML 4.01"
def HTMLVersionHTML401Strict : String := "HTML 4.01 Strict"
def HTMLVersionHTML401Transitional : String := "HTML 4.01 Transitional"
def HTMLVersionHTML401Frameset : String := "HTML 4.01 Frameset"
def HTMLVersionHTML40 : String := "HTML 4.0"
def HTMLVersionHTML32 : String := "HTML 3.2"
def HTMLVersionHTML20 : String := "HTML 2.0"
def HTMLVersionXHTMLGeneric : String := "XHTML"
def HTMLVersionHTMLGeneric : String := "HTML"
def HTMLVersionUnknown : String := "Unknown DOCTYPE"

def DOCTYPEKeywordHTML : String := "HTML"
def DOCTYPEKeywordXHTML : String := "XHTML"
def DOCTYPEKeywordStrict : String := "STRICT"
def DOCTYPEKeywordTransitional : String := "TRANSITIONAL"
def DOCTYPEKeywordFrameset : String := "FRAMESET"
def DOCTYPEKeywordHTML401 : String := "HTML 4.01"
def DOCTYPEKeywordHTML40 : String := "HTML 4.0"
def DOCTYPEKeywordHTML32 : String := "HTML 3.2"
def DOCTYPEKeywordHTML20 : String := "HTML 2.0"
def DOCTYPEKeywordXHTML11 : String := "XHTML 1.1"
def DOCTYPEKeywordXHTML10 : String := "XHTML 1.0"

/-- Case-insensitive `leadsWith`, for the `(?i)` literals of the regexes;
the pattern is given in lowercase. -/
def leadsWithCI : List Char → List Char → Bool
  | [], _ => true
  | _ :: _, [] => false
  | p :: ps, c :: cs => c.toLower == p && leadsWithCI ps cs

/-- The Latin-1 part of Go `unicode.IsSpace`, used by `strings.TrimSpace`
(wider Unicode space runes are not modelled; they cannot occur in the ASCII
keywords the classifier tests). -/
def isUnicodeSpace (c : Char) : Bool :=
  c == ' ' || c == '\t' || c == '\n' || c == '\x0b' || c == '\x0c' || c == '\r' ||
    c == '\x85' || c == '\xa0'

def trimSpaceChars (s : List Char) : List Char :=
  ((s.dropWhile isUnicodeSpace).reverse.dropWhile isUnicodeSpace).reverse

/-- `RegexXMLDeclaration`: replace `(?i)^\s*<\?xml[^>]*\?>\s*` by the empty
string (the pattern is anchored, so at most the leading occurrence is
removed).  The `[^>]*\?>` part matches up to the first `>` provided the
character before it is `?`. -/
def stripXMLDecl (s : List Char) : List Char :=
  let t := s.dropWhile isGoSpace
  match leadsWithCI "<?xml".toList t with
  | false => s
  | true =>
    let rest := t.drop 5
    let before := rest.takeWhile (fun x => x != '>')
    match rest.dropWhile (fun x => x != '>') with
    | [] => s
    | _ :: afterGt =>
      if before.getLast? == some '?' then afterGt.dropWhile isGoSpace else s

/-- `RegexHTMLComment`: replace `(?i)^\s*<!--.*?-->\s*` by the empty string.
`.` does not match a newline, so the lazy `.*?-->` finds the first `-->`
not separated from the opener by a newline. -/
def findCommentEnd : List Char → Option (List Char)
  | [] => none
  | c :: cs =>
    if leadsWith "-->".toList (c :: cs) then some (cs.drop 2)
    else if c == '\n' then none
    else findCommentEnd cs

def stripLeadingComment (s : List Char) : List Char :=
  let t := s.dropWhile isGoSpace
  match leadsWith "<!--".toList t with
  | false => s
  | true =>
    match findCommentEnd (t.drop 4) with
    | none => s
    | some afterEnd => afterEnd.dropWhile isGoSpace

/-- `RegexDOCTYPEExtraction`: `FindString` of `(?i)^\s*<!DOCTYPE\s+[^>]*>`,
returning the matched text (leading whitespace included, original case). -/
def extractDoctypeToken (s : List Char) : List Char :=
  let sp := s.takeWhile isGoSpace
  let t := s.dropWhile isGoSpace
  if leadsWithCI "<!doctype".toList t then
    match t.drop 9 with
    | [] => []
    | c :: cs =>
      if isGoSpace c then
        let body := (c :: cs).takeWhile (fun x => x != '>')
        match (c :: cs).dropWhile (fun x => x != '>') with
        | [] => []
        | _ :: _ => sp ++ t.take 9 ++ body ++ ['>']
      else []
  else []

/-- `extractDOCTYPE` (analyzer.go lines 259-278). -/
def extractDOCTYPE (htmlContent : String) : String :=
  let cleaned := trimSpaceChars htmlContent.toList
  let c1 := stripXMLDecl cleaned
  let c2 := stripLeadingComment c1
  String.mk ((extractDoctypeToken c2).map Char.toUpper)

/-- `RegexHTML5DOCTYPE`: `^\s*<!DOCTYPE\s+HTML\s*>\s*$` (case sensitive;
the doctype token has already been uppercased). -/
def matchHTML5Doctype (doctype : String) : Bool :=
  let s := doctype.toList.dropWhile isGoSpace
  if leadsWith "<!DOCTYPE".toList s then
    match s.drop 9 with
    | [] => false
    | c :: cs =>
      if isGoSpace c then
        let r2 := cs.dropWhile isGoSpace
        if leadsWith "HTML".toList r2 then
          match (r2.drop 4).dropWhile isGoSpace with
          | '>' :: r4 => (r4.dropWhile isGoSpace).isEmpty
          | _ => false
        else false
      else false
  else false

/-- `checkHTMLVersionWithVariants` (analyzer.go lines 280-301). -/
def checkHTMLVersionWithVariants
    (doctype keyword baseVersion strictVersion transitionalVersion framesetVersion : String) :
    String :=
  if !(strContains doctype keyword) then ""
  else if strictVersion != "" && strContains doctype DOCTYPEKeywordStrict then strictVersion
  else if transitionalVersion != "" && strContains doctype DOCTYPEKeywordTransitional then
    transitionalVersion
  else if framesetVersion != "" && strContains doctype DOCTYPEKeywordFrameset then framesetVersion
  else baseVersion

/-- The contents of the Go map literal `simpleVersions` (analyzer.go lines
235-239), in source order.  Go iterates this map with `range`, whose order
is deliberately randomized, so the iteration order is a parameter below. -/
def simpleVersions : List (String × String) :=
  [(DOCTYPEKeywordHTML40, HTMLVersionHTML40),
   (DOCTYPEKeywordHTML32, HTMLVersionHTML32),
   (DOCTYPEKeywordHTML20, HTMLVersionHTML20)]

/-- The `for keyword, version := range simpleVersions` loop (lines 241-245),
over a given iteration order of the map entries. -/
def lookupSimple (order : List (String × String)) (doctype : String) : Option String :=
  match order with
  | [] => none
  | (keyword, version) :: rest =>
    if strContains doctype keyword then some version else lookupSimple rest doctype

/-- `detectHTMLVersion` (analyzer.go lines 207-257).  `order` is the
iteration order the Go runtime chooses for the `simpleVersions` map on this
evaluation; a run of the program corresponds to some permutation of
`simpleVersions`. -/
def detectHTMLVersion (order : List (String × String)) (htmlContent : String) : String :=
  let doctype := extractDOCTYPE htmlContent
  if doctype == "" then HTMLVersion5
  else if matchHTML5Doctype doctype then HTMLVersion5
  else
    let v1 := checkHTMLVersionWithVariants doctype DOCTYPEKeywordXHTML11 HTMLVersionXHTML11
      "" "" ""
    if v1 != "" then v1
    else
      let v2 := checkHTMLVersionWithVariants doctype DOCTYPEKeywordXHTML10 HTMLVersionXHTML10
        HTMLVersionXHTML10Strict HTMLVersionXHTML10Transitional HTMLVersionXHTML10Frameset
      if v2 != "" then v2
      else
        let v3 := checkHTMLVersionWithVariants doctype DOCTYPEKeywordHTML401 HTMLVersionHTML401
          HTMLVersionHTML401Strict HTMLVersionHTML401Transitional HTMLVersionHTML401Frameset
        if v3 != "" then v3
        else
          match lookupSimple order doctype with
          | some version => version
          | none =>
            if strContains doctype DOCTYPEKeywordXHTML then HTMLVersionXHTMLGeneric
            else if strContains doctype DOCTYPEKeywordHTML then HTMLVersionHTMLGeneric
            else HTMLVersionUnknown

/-- The enumerated label set of the output schema; the unknown label is the
constant `HTMLVersionUnknown` of constants.go. -/
def htmlVersionLabels : List String :=
  [HTMLVersion5, HTMLVersionXHTML11, HTMLVersionXHTML10, HTMLVersionXHTML10Strict,
   HTMLVersionXHTML10Transitional, HTMLVersionXHTML10Frameset, HTMLVersionHTML401,
   HTMLVersionHTML401Strict, HTMLVersionHTML401Transitional, HTMLVersionHTML401Frameset,
   HTMLVersionHTML40, HTMLVersionHTML32, HTMLVersionHTML20, HTMLVersionXHTMLGeneric,
   HTMLVersionHTMLGeneric, HTMLVersionUnknown]

/-! #### Classifier lemmas and claim theorems -/

lemma checkVariants_cases (d k b s t f : String) :
    checkHTMLVersionWithVariants d k b s t f = "" ∨
    checkHTMLVersionWithVariants d k b s t f = b ∨
    checkHTMLVersionWithVariants d k b s t f = s ∨
    checkHTMLVersionWithVariants d k b s t f = t ∨
    checkHTMLVersionWithVariants d k b s t f = f := by
  unfold checkHTMLVersionWithVariants
  split_ifs <;> tauto

lemma lookupSimple_mem {order : List (String × String)} (d : String)
    (h : ∀ p ∈ order, p ∈ simpleVersions) {v : String}
    (hv : lookupSimple order d = some v) :
    v = HTMLVersionHTML40 ∨ v = HTMLVersionHTML32 ∨ v = HTMLVersionHTML20 := by
  induction order with
  | nil => simp [lookupSimple] at hv
  | cons p rest ih =>
    obtain ⟨k, w⟩ := p
    by_cases hc : strContains d k = true
    · simp only [lookupSimple, hc, if_true, Option.some.injEq] at hv
      subst hv
      have hm := h (k, w) (List.mem_cons_self _ _)
      simp only [simpleVersions, List.mem_cons, List.mem_singleton, Prod.mk.injEq,
        List.not_mem_nil, or_false] at hm
      tauto
    · simp only [lookupSimple, hc, if_false, Bool.false_eq_true] at hv
      exact ih (fun q hq => h q (List.mem_cons_of_mem _ hq)) hv

/-- If a variant check returns a nonempty label and each supplied variant
label is empty or enumerated, the result is enumerated. -/
lemma checkVariants_mem (d k b s t f : String)
    (hb : b ∈ htmlVersionLabels) (hs : s = "" ∨ s ∈ htmlVersionLabels)
    (ht : t = "" ∨ t ∈ htmlVersionLabels) (hf : f = "" ∨ f ∈ htmlVersionLabels)
    (hne : (checkHTMLVersionWithVariants d k b s t f != "") = true) :
    checkHTMLVersionWithVariants d k b s t f ∈ htmlVersionLabels := by
  rcases checkVariants_cases d k b s t f with h | h | h | h | h <;>
    rw [h] at hne ⊢
  · simp at hne
  · exact hb
  · rcases hs with rfl | hs
    · simp at hne
    · exact hs
  · rcases ht with rfl | ht
    · simp at hne
    · exact ht
  · rcases hf with rfl | hf
    · simp at hne
    · exact hf

/-- C3: for every raw markup input (and every iteration order the Go
runtime can choose for the `simpleVersions` map), the version classifier
returns a label from the enumerated set; the unknown label is the constant
`HTMLVersionUnknown` (`"Unknown DOCTYPE"`). -/
theorem detect_version_mem_labels (order : List (String × String)) (htmlContent : String)
    (horder : ∀ p ∈ order, p ∈ simpleVersions) :
    detectHTMLVersion order htmlContent ∈ htmlVersionLabels := by
  simp only [detectHTMLVersion]
  rcases hl : lookupSimple order (extractDOCTYPE htmlContent) with _ | v <;>
    simp only [hl] <;>
    split_ifs <;>
    first
    | decide
    | exact checkVariants_mem _ _ _ _ _ _ (by decide) (by decide) (by decide) (by decide)
        (by assumption)
    | (rcases lookupSimple_mem (extractDOCTYPE htmlContent) horder hl with h | h | h <;>
        rw [h] <;> decide)

/-- Witness for C3 at a concrete input and the source-order iteration. -/
theorem detect_version_mem_labels_witness :
    detectHTMLVersion simpleVersions "<!DOCTYPE html><html></html>" ∈ htmlVersionLabels :=
  detect_version_mem_labels simpleVersions "<!DOCTYPE html><html></html>" (fun _ hp => hp)

/-- C4 fails on the code: the simple-version fallback iterates a Go map
(`for keyword, version := range simpleVersions`), whose iteration order is
randomized, and on a doctype containing both the `HTML 4.0` and the
`HTML 3.2` keyword two iteration orders (both permutations of the map
entries) produce different labels, so the classifier is not deterministic
as the claim and the spec require. -/
theorem detect_version_map_order_dependent :
    detectHTMLVersion simpleVersions "<!DOCTYPE HTML 4.0 HTML 3.2>" = HTMLVersionHTML40 ∧
    detectHTMLVersion simpleVersions.reverse "<!DOCTYPE HTML 4.0 HTML 3.2>"
      = HTMLVersionHTML32 ∧
    simpleVersions.reverse.Perm simpleVersions ∧
    HTMLVersionHTML40 ≠ HTMLVersionHTML32 := by
  refine ⟨by decide, by decide, List.reverse_perm _, by decide⟩

/-! ### Login-form detection (analyzer.go, `detectLoginForm`, lines 430-531)

A `Form` is the snapshot of one `form` element's attributes and children
that the scorer queries: its `action` attribute and the `input`, `button`,
`a` and `label` elements inside it.  `input` elements have no text content
(`Text()` is the empty string); `parentText` is the text of an input's
parent node, used by the remember-me check. -/

structure InputElem where
  type : Option String
  name : Option String
  id : Option String
  value : Option String
  parentText : String
deriving DecidableEq, Repr

structure BtnElem where
  type : Option String
  text : String
  value : Option String
  classAttr : Option String
deriving DecidableEq, Repr

structure AnchorElem where
  text : String
  classAttr : Option String
deriving DecidableEq, Repr

structure LabelElem where
  forAttr : Option String
  text : String
deriving DecidableEq, Repr

structure Form where
  action : Option String
  inputs : List InputElem
  buttons : List BtnElem
  anchors : List AnchorElem
  labels : List LabelElem
deriving DecidableEq, Repr

/-- `meta` elements of the page (`name` and `content` attributes). -/
structure MetaElem where
  name : Option String
  content : Option String
deriving DecidableEq, Repr

/-- `link` elements of the page (`rel` and `content` attributes). -/
structure LinkTagElem where
  rel : Option String
  content : Option String
deriving DecidableEq, Repr

/-- The cascadia substring attribute selector with the `i` flag,
`[attr*=pat i]`: the attribute exists and contains `pat`
case-insensitively (`pat` given lowercase). -/
def attrContainsCI (a : Option String) (pat : String) : Bool :=
  match a with
  | none => false
  | some v => strContains (strToLower v) pat

/-- Form action check (lines 440-445): +3 when the action contains
"login", "signin" or "auth" (lowercased). -/
def actionScore (f : Form) : Nat :=
  match f.action with
  | none => 0
  | some action =>
    let actionLower := strToLower action
    if strContains actionLower "login" || strContains actionLower "signin" ||
        strContains actionLower "auth" then 3
    else 0

/-- `input[type='password']` (lines 447-450): +4 when present. -/
def isPasswordInput (i : InputElem) : Bool := i.type == some "password"

def passwordScore (f : Form) : Nat :=
  if (f.inputs.filter isPasswordInput).length > 0 then 4 else 0

/-- The user-field selector (line 454): text/email type, or name/id
containing "username"/"email" case-insensitively. -/
def isUserField (i : InputElem) : Bool :=
  i.type == some "text" || i.type == some "email" ||
    attrContainsCI i.name "username" || attrContainsCI i.name "email" ||
    attrContainsCI i.id "username" || attrContainsCI i.id "email"

def userScore (f : Form) : Nat :=
  if (f.inputs.filter isUserField).length > 0 then 3 else 0

/-- The text a submit control is judged by (lines 461-464): its lowercased
text, plus a space and its lowercased `value` attribute when present. -/
def submitText (text : String) (value : Option String) : String :=
  let btnText := strToLower text
  match value with
  | none => btnText
  | some v => btnText ++ " " ++ strToLower v

def isLoginSubmitText (t : String) : Bool :=
  strContains t "login" || strContains t "sign in" || strContains t "log in"

/-- The `button[type='submit'], input[type='submit']` pass (lines 460-468):
+2 for EACH matching control (the score accumulates inside the Each). -/
def submitScore (f : Form) : Nat :=
  2 * ((f.buttons.filter
          (fun b => b.type == some "submit" && isLoginSubmitText (submitText b.text b.value))).length
        + (f.inputs.filter
            (fun i => i.type == some "submit" && isLoginSubmitText (submitText "" i.value))).length)

/-- The label text assembled for a checkbox (lines 471-478): the parent's
text, extended by the text of every `label[for=id]` in the form. -/
def checkboxLabel (labels : List LabelElem) (i : InputElem) : String :=
  match i.id with
  | none => i.parentText
  | some idv =>
    labels.foldl (fun acc l => if l.forAttr == some idv then acc ++ " " ++ l.text else acc)
      i.parentText

def isRememberMe (labels : List LabelElem) (i : InputElem) : Bool :=
  let labelLower := strToLower (checkboxLabel labels i)
  strContains labelLower "remember me" || strContains labelLower "keep me signed in"

def rememberScore (f : Form) : Nat :=
  if ((f.inputs.filter (fun i => i.type == some "checkbox")).filter
      (isRememberMe f.labels)).length > 0 then 2
  else 0

/-- Forgot-password links inside the form (lines 486-492). -/
def isForgotPwd (a : AnchorElem) : Bool :=
  let text := strToLower a.text
  strContains text "forgot" && strContains text "password"

def forgotScore (f : Form) : Nat :=
  if (f.anchors.filter isForgotPwd).length > 0 then 2 else 0

def oauthProviders : List String := ["google", "facebook", "github", "twitter", "microsoft"]

/-- OAuth/SSO detection over `button, a` elements (lines 494-514); a missing
class attribute reads as the empty string. -/
def isOAuthCtl (text classAttr : String) : Bool :=
  let t := strToLower text
  let c := strToLower classAttr
  oauthProviders.any (fun p =>
    strContains t ("sign in with " ++ p) || strContains t ("login with " ++ p) ||
      (strContains c p &&
        (strContains c "auth" || strContains c "login" || strContains c "oauth")))

def oauthScore (f : Form) : Nat :=
  if ((f.buttons.filter (fun b => isOAuthCtl b.text (b.classAttr.getD ""))).length
      + (f.anchors.filter (fun a => isOAuthCtl a.text (a.classAttr.getD ""))).length) > 0 then 2
  else 0

/-- The per-form additive score (`formScore` in the Each body,
lines 436-520). -/
def formScore (f : Form) : Nat :=
  actionScore f + passwordScore f + userScore f + submitScore f + rememberScore f +
    forgotScore f + oauthScore f

/-- The fold over the page's forms (lines 516-519): keep the maximum
per-form score, starting from 0. -/
def maxFormScore (forms : List Form) : Nat :=
  forms.foldl (fun score f => if formScore f > score then formScore f else score) 0

def metaMatchesSel (m : MetaElem) : Bool :=
  attrContainsCI m.name "sign" || attrContainsCI m.name "auth"

def linkMatchesSel (l : LinkTagElem) : Bool :=
  attrContainsCI l.rel "authorization"

def hasAuthContent (content : Option String) : Bool :=
  match content with
  | none => false
  | some c => strContains (strToLower c) "auth"

/-- The page-level pass (lines 522-527): +1 for each element matched by
`meta[name*='sign' i], meta[name*='auth' i], link[rel*='authorization' i]`
whose `content` attribute exists and contains "auth". -/
def authMetaCount (metas : List MetaElem) (linkTags : List LinkTagElem) : Nat :=
  ((metas.filter metaMatchesSel).filter (fun m => hasAuthContent m.content)).length
    + ((linkTags.filter linkMatchesSel).filter (fun l => hasAuthContent l.content)).length

def DefaultLoginFormThreshold : Nat := 10

/-- `detectLoginForm` (analyzer.go lines 430-531). -/
def detectLoginForm (forms : List Form) (metas : List MetaElem)
    (linkTags : List LinkTagElem) : Bool :=
  decide (maxFormScore forms + authMetaCount metas linkTags ≥ DefaultLoginFormThreshold)

/-! #### Monotonicity lemmas for the login scorer -/

lemma filter_length_mono_append {α : Type} (p : α → Bool) (l : List α) (e : α) :
    (l.filter p).length ≤ ((l ++ [e]).filter p).length := by
  rw [List.filter_append, List.length_append]
  exact Nat.le_add_right ..

lemma filter2_length_mono_append {α : Type} (p q : α → Bool) (l : List α) (e : α) :
    ((l.filter p).filter q).length ≤ (((l ++ [e]).filter p).filter q).length := by
  rw [List.filter_append, List.filter_append, List.length_append]
  exact Nat.le_add_right ..

lemma indicator_mono (w a b : Nat) (h : a ≤ b) :
    (if a > 0 then w else 0) ≤ (if b > 0 then w else 0) := by
  split_ifs <;> omega

lemma filter_length_mono_pred {α : Type} (p q : α → Bool)
    (h : ∀ x, p x = true → q x = true) :
    ∀ l : List α, (l.filter p).length ≤ (l.filter q).length := by
  intro l
  induction l with
  | nil => simp
  | cons x xs ih =>
    by_cases hx : p x = true
    · have hq := h x hx
      simp only [List.filter_cons, hx, hq, if_true, List.length_cons]
      omega
    · simp only [List.filter_cons, hx, if_false, Bool.false_eq_true]
      by_cases hq : q x = true <;> simp only [hq, if_true, if_false, List.length_cons,
        Bool.false_eq_true] <;> omega

lemma leadsWith_append (pat s t : List Char) (h : leadsWith pat s = true) :
    leadsWith pat (s ++ t) = true := by
  induction pat generalizing s with
  | nil => simp [leadsWith]
  | cons p ps ih =>
    cases s with
    | nil => simp [leadsWith] at h
    | cons c cs =>
      simp only [leadsWith, List.cons_append, Bool.and_eq_true] at h ⊢
      exact ⟨h.1, ih cs h.2⟩

lemma charsContain_nil_pat : ∀ l : List Char, charsContain [] l = true
  | [] => rfl
  | _ :: _ => rfl

lemma charsContain_append (pat s t : List Char) (h : charsContain pat s = true) :
    charsContain pat (s ++ t) = true := by
  induction s with
  | nil =>
    have : pat = [] := by
      simpa [charsContain, List.isEmpty_iff] using h
    subst this
    exact charsContain_nil_pat t
  | cons c cs ih =>
    simp only [charsContain, List.cons_append, Bool.or_eq_true] at h ⊢
    rcases h with h | h
    · exact Or.inl (leadsWith_append _ _ _ h)
    · exact Or.inr (ih h)

lemma strContains_append_right (s t pat : String) (h : strContains s pat = true) :
    strContains (s ++ t) pat = true := by
  unfold strContains at h ⊢
  rw [show (s ++ t).toList = s.toList ++ t.toList from by simp [String.toList]]
  exact charsContain_append _ _ _ h

lemma strToLower_append (s t : String) :
    strToLower (s ++ t) = strToLower s ++ strToLower t := by
  unfold strToLower
  rw [show (s ++ t).toList = s.toList ++ t.toList from by simp [String.toList],
    List.map_append]
  rfl

lemma checkboxLabel_append (labels : List LabelElem) (l : LabelElem) (i : InputElem) :
    ∃ extra, checkboxLabel (labels ++ [l]) i = checkboxLabel labels i ++ extra := by
  unfold checkboxLabel
  rcases i.id with _ | idv
  · exact ⟨"", by simp⟩
  · dsimp only
    rw [List.foldl_append, List.foldl_cons, List.foldl_nil]
    by_cases h : (l.forAttr == some idv) = true
    · exact ⟨" " ++ l.text, by simp [h, String.append_assoc]⟩
    · exact ⟨"", by simp [h]⟩

lemma isRememberMe_append (labels : List LabelElem) (l : LabelElem) (i : InputElem)
    (h : isRememberMe labels i = true) : isRememberMe (labels ++ [l]) i = true := by
  obtain ⟨extra, he⟩ := checkboxLabel_append labels l i
  unfold isRememberMe at h ⊢
  rw [he, strToLower_append]
  simp only [Bool.or_eq_true] at h ⊢
  rcases h with h | h
  · exact Or.inl (strContains_append_right _ _ _ h)
  · exact Or.inr (strContains_append_right _ _ _ h)

lemma actionScore_le (f : Form) : actionScore f ≤ 3 := by
  unfold actionScore
  rcases f.action with _ | a
  · dsimp only
    omega
  · dsimp only
    split_ifs <;> omega

lemma formScore_addInput (f : Form) (e : InputElem) :
    formScore f ≤ formScore { f with inputs := f.inputs ++ [e] } := by
  have e1 : actionScore { f with inputs := f.inputs ++ [e] } = actionScore f := rfl
  have e2 : forgotScore { f with inputs := f.inputs ++ [e] } = forgotScore f := rfl
  have e3 : oauthScore { f with inputs := f.inputs ++ [e] } = oauthScore f := rfl
  have h1 : passwordScore f ≤ passwordScore { f with inputs := f.inputs ++ [e] } :=
    indicator_mono 4 _ _ (filter_length_mono_append isPasswordInput f.inputs e)
  have h2 : userScore f ≤ userScore { f with inputs := f.inputs ++ [e] } :=
    indicator_mono 3 _ _ (filter_length_mono_append isUserField f.inputs e)
  have h3 : submitScore f ≤ submitScore { f with inputs := f.inputs ++ [e] } :=
    Nat.mul_le_mul_left 2 (Nat.add_le_add_left (filter_length_mono_append _ f.inputs e) _)
  have h4 : rememberScore f ≤ rememberScore { f with inputs := f.inputs ++ [e] } :=
    indicator_mono 2 _ _ (filter2_length_mono_append _ (isRememberMe f.labels) f.inputs e)
  unfold formScore
  rw [e1, e2, e3]
  omega

lemma formScore_addButton (f : Form) (b : BtnElem) :
    formScore f ≤ formScore { f with buttons := f.buttons ++ [b] } := by
  have e1 : actionScore { f with buttons := f.buttons ++ [b] } = actionScore f := rfl
  have e2 : passwordScore { f with buttons := f.buttons ++ [b] } = passwordScore f := rfl
  have e3 : userScore { f with buttons := f.buttons ++ [b] } = userScore f := rfl
  have e4 : rememberScore { f with buttons := f.buttons ++ [b] } = rememberScore f := rfl
  have e5 : forgotScore { f with buttons := f.buttons ++ [b] } = forgotScore f := rfl
  have h1 : submitScore f ≤ submitScore { f with buttons := f.buttons ++ [b] } :=
    Nat.mul_le_mul_left 2 (Nat.add_le_add_right (filter_length_mono_append _ f.buttons b) _)
  have h2 : oauthScore f ≤ oauthScore { f with buttons := f.buttons ++ [b] } :=
    indicator_mono 2 _ _ (Nat.add_le_add_right (filter_length_mono_append _ f.buttons b) _)
  unfold formScore
  rw [e1, e2, e3, e4, e5]
  omega

lemma formScore_addAnchor (f : Form) (a : AnchorElem) :
    formScore f ≤ formScore { f with anchors := f.anchors ++ [a] } := by
  have e1 : actionScore { f with anchors := f.anchors ++ [a] } = actionScore f := rfl
  have e2 : passwordScore { f with anchors := f.anchors ++ [a] } = passwordScore f := rfl
  have e3 : userScore { f with anchors := f.anchors ++ [a] } = userScore f := rfl
  have e4 : rememberScore { f with anchors := f.anchors ++ [a] } = rememberScore f := rfl
  have e5 : submitScore { f with anchors := f.anchors ++ [a] } = submitScore f := rfl
  have h1 : forgotScore f ≤ forgotScore { f with anchors := f.anchors ++ [a] } :=
    indicator_mono 2 _ _ (filter_length_mono_append isForgotPwd f.anchors a)
  have h2 : oauthScore f ≤ oauthScore { f with anchors := f.anchors ++ [a] } :=
    indicator_mono 2 _ _ (Nat.add_le_add_left (filter_length_mono_append _ f.anchors a) _)
  unfold formScore
  rw [e1, e2, e3, e4, e5]
  omega

lemma formScore_addLabel (f : Form) (l : LabelElem) :
    formScore f ≤ formScore { f with labels := f.labels ++ [l] } := by
  have e1 : actionScore { f with labels := f.labels ++ [l] } = actionScore f := rfl
  have e2 : passwordScore { f with labels := f.labels ++ [l] } = passwordScore f := rfl
  have e3 : userScore { f with labels := f.labels ++ [l] } = userScore f := rfl
  have e4 : submitScore { f with labels := f.labels ++ [l] } = submitScore f := rfl
  have e5 : forgotScore { f with labels := f.labels ++ [l] } = forgotScore f := rfl
  have e6 : oauthScore { f with labels := f.labels ++ [l] } = oauthScore f := rfl
  have h1 : rememberScore f ≤ rememberScore { f with labels := f.labels ++ [l] } :=
    indicator_mono 2 _ _
      (filter_length_mono_pred (isRememberMe f.labels) (isRememberMe (f.labels ++ [l]))
        (fun i hi => isRememberMe_append f.labels l i hi)
        (f.inputs.filter (fun i => i.type == some "checkbox")))
  unfold formScore
  rw [e1, e2, e3, e4, e5, e6]
  omega

lemma formScore_setAction (f : Form) (a : String)
    (h : (strContains (strToLower a) "login" || strContains (strToLower a) "signin" ||
          strContains (strToLower a) "auth") = true) :
    formScore f ≤ formScore { f with action := some a } := by
  have e1 : passwordScore { f with action := some a } = passwordScore f := rfl
  have e2 : userScore { f with action := some a } = userScore f := rfl
  have e3 : submitScore { f with action := some a } = submitScore f := rfl
  have e4 : rememberScore { f with action := some a } = rememberScore f := rfl
  have e5 : forgotScore { f with action := some a } = forgotScore f := rfl
  have e6 : oauthScore { f with action := some a } = oauthScore f := rfl
  have h1 : actionScore { f with action := some a } = 3 := by
    unfold actionScore
    simp only [Bool.or_eq_true] at h
    rcases h with (h | h) | h <;> simp [h]
  have h2 := actionScore_le f
  unfold formScore
  rw [e1, e2, e3, e4, e5, e6, h1]
  omega

/-- Adding one matching signal to a form: a new input, button, anchor or
label element appended to the form's children, or the action attribute set
to one containing a login/signin/auth keyword. -/
inductive SignalAdd : Form → Form → Prop where
  | addInput (f : Form) (e : InputElem) :
      SignalAdd f { f with inputs := f.inputs ++ [e] }
  | addButton (f : Form) (b : BtnElem) :
      SignalAdd f { f with buttons := f.buttons ++ [b] }
  | addAnchor (f : Form) (a : AnchorElem) :
      SignalAdd f { f with anchors := f.anchors ++ [a] }
  | addLabel (f : Form) (l : LabelElem) :
      SignalAdd f { f with labels := f.labels ++ [l] }
  | setMatchingAction (f : Form) (a : String)
      (h : (strContains (strToLower a) "login" || strContains (strToLower a) "signin" ||
            strContains (strToLower a) "auth") = true) :
      SignalAdd f { f with action := some a }

lemma maxFold_mono_init (l : List Form) : ∀ a b : Nat, a ≤ b →
    l.foldl (fun score f => if formScore f > score then formScore f else score) a
      ≤ l.foldl (fun score f => if formScore f > score then formScore f else score) b := by
  induction l with
  | nil => intro a b h; simpa using h
  | cons x xs ih =>
    intro a b h
    simp only [List.foldl_cons]
    apply ih
    split_ifs <;> omega

lemma detectLoginForm_replace_mono (pre post : List Form) (f g : Form)
    (metas : List MetaElem) (linkTags : List LinkTagElem)
    (hfg : formScore f ≤ formScore g)
    (ht : detectLoginForm (pre ++ f :: post) metas linkTags = true) :
    detectLoginForm (pre ++ g :: post) metas linkTags = true := by
  unfold detectLoginForm at ht ⊢
  simp only [decide_eq_true_eq] at ht ⊢
  have hm : maxFormScore (pre ++ f :: post) ≤ maxFormScore (pre ++ g :: post) := by
    unfold maxFormScore
    rw [List.foldl_append, List.foldl_append, List.foldl_cons, List.foldl_cons]
    apply maxFold_mono_init
    split_ifs <;> omega
  omega

/-- Concrete elements for the scenario-D form of the spec's test catalogue. -/
def usernameInput : InputElem :=
  { type := some "text", name := some "username", id := none, value := none, parentText := "" }

def passwordInput : InputElem :=
  { type := some "password", name := none, id := none, value := none, parentText := "" }

def loginSubmitBtn : BtnElem :=
  { type := some "submit", text := "Login", value := none, classAttr := none }

/-- Scenario D: a text username field, a password field and a submit button
labeled "Login"; no action, OAuth, remember-me or forgot-password signal. -/
def scenarioDForm : Form :=
  { action := none, inputs := [usernameInput, passwordInput], buttons := [loginSubmitBtn],
    anchors := [], labels := [] }

def rememberMeCheckbox : InputElem :=
  { type := some "checkbox", name := none, id := none, value := none,
    parentText := "Remember me" }

def forgotPwdAnchor : AnchorElem := { text := "Forgot password?", classAttr := none }

def googleOAuthBtn : BtnElem :=
  { type := none, text := "Sign in with Google", value := none, classAttr := none }

/-- C6: the scenario-D form scores 4 (password) + 3 (user field) +
2 (submit text) = 9 < 10, so `has_login_form` is false; adding any one
additional qualifying signal (an action containing "login" worth +3, a
remember-me checkbox, a forgot-password link, or an OAuth control, each
worth +2) brings the score to ≥ 10, so `has_login_form` becomes true. -/
theorem scenarioD_login_scoring :
    passwordScore scenarioDForm = 4 ∧
    userScore scenarioDForm = 3 ∧
    submitScore scenarioDForm = 2 ∧
    formScore scenarioDForm = 9 ∧
    detectLoginForm [scenarioDForm] [] [] = false ∧
    detectLoginForm [{ scenarioDForm with action := some "/login" }] [] [] = true ∧
    detectLoginForm
      [{ scenarioDForm with inputs := scenarioDForm.inputs ++ [rememberMeCheckbox] }]
      [] [] = true ∧
    detectLoginForm [{ scenarioDForm with anchors := [forgotPwdAnchor] }] [] [] = true ∧
    detectLoginForm
      [{ scenarioDForm with buttons := scenarioDForm.buttons ++ [googleOAuthBtn] }]
      [] [] = true := by
  refine ⟨by decide, by decide, by decide, by decide, by decide, by decide, by decide,
    by decide, by decide⟩

/-- C7: the login score is monotonic.  Adding any additional matching
signal to a form (`SignalAdd`: a new input, button, anchor or label
element, or a matching action) cannot decrease its computed score, and
replacing a form of the page by such an augmented form cannot turn
`has_login_form` from true to false. -/
theorem login_score_monotone :
    (∀ f g : Form, SignalAdd f g → formScore f ≤ formScore g) ∧
    (∀ (pre post : List Form) (f g : Form) (metas : List MetaElem)
        (linkTags : List LinkTagElem), SignalAdd f g →
      detectLoginForm (pre ++ f :: post) metas linkTags = true →
      detectLoginForm (pre ++ g :: post) metas linkTags = true) := by
  have hmono : ∀ f g : Form, SignalAdd f g → formScore f ≤ formScore g := by
    intro f g h
    cases h with
    | addInput e => exact formScore_addInput f e
    | addButton b => exact formScore_addButton f b
    | addAnchor a => exact formScore_addAnchor f a
    | addLabel l => exact formScore_addLabel f l
    | setMatchingAction a ha => exact formScore_setAction f a ha
  exact ⟨hmono, fun pre post f g metas linkTags h ht =>
    detectLoginForm_replace_mono pre post f g metas linkTags (hmono f g h) ht⟩

/-- Witness for C7: applying the theorem at the scenario-D form with an
added password input, and at a page whose form (scenario D plus a matching
action, score 12) is augmented with a forgot-password link. -/
theorem login_score_monotone_witness :
    formScore scenarioDForm
        ≤ formScore { scenarioDForm with inputs := scenarioDForm.inputs ++ [passwordInput] } ∧
    detectLoginForm
        [{ { scenarioDForm with action := some "/login" } with
            anchors := { scenarioDForm with action := some "/login" }.anchors
              ++ [forgotPwdAnchor] }] [] [] = true :=
  ⟨login_score_monotone.1 _ _ (SignalAdd.addInput scenarioDForm passwordInput),
   login_score_monotone.2 [] [] { scenarioDForm with action := some "/login" } _ [] []
     (SignalAdd.addAnchor { scenarioDForm with action := some "/login" } forgotPwdAnchor)
     (by decide)⟩

/-- A meta tag matched by the page-level selector whose content contains
"auth". -/
def authMetaElem : MetaElem := { name := some "auth", content := some "authentication" }

/-- C10: `has_login_form` can be true with no form elements at all: the
per-form maximum over an empty form list is 0, and the page-level pass adds
1 per matching meta/link tag with "auth" content, so threshold-many such
tags alone reach the threshold. -/
theorem login_form_without_forms (metas : List MetaElem) (linkTags : List LinkTagElem)
    (h : DefaultLoginFormThreshold ≤ authMetaCount metas linkTags) :
    maxFormScore [] = 0 ∧ detectLoginForm [] metas linkTags = true := by
  refine ⟨rfl, ?_⟩
  unfold detectLoginForm
  simp only [decide_eq_true_eq]
  have h0 : maxFormScore [] = 0 := rfl
  omega

/-- Witness for C10: ten copies of a matching meta tag and zero forms. -/
theorem login_form_without_forms_witness :
    maxFormScore [] = 0 ∧
    detectLoginForm [] (List.replicate 10 authMetaElem) [] = true :=
  login_form_without_forms (List.replicate 10 authMetaElem) [] (by decide)

/-! ### Webpage fetcher (analyzer.go, `fetchWebpage`, lines 135-153)

A `FetchOutcome` is the oracle for what `httpClient.Get` and the body read
produce: a transport error, or a response with a status code and either a
readable body or a body whose `io.ReadAll` fails. -/

def StatusOK : Nat := 200

inductive FetchOutcome where
  | transportError
  | response (status : Nat) (body : Option String)
deriving DecidableEq, Repr

inductive FetchErr where
  | transport
  | badStatus (code : Nat)
  | readBody
deriving DecidableEq, Repr

/-- `fetchWebpage`: fail on a transport error; fail with the status code if
the status is not exactly 200; fail if reading the body fails; otherwise
return the raw body text. -/
def fetchWebpage : FetchOutcome → Except FetchErr String
  | .transportError => .error .transport
  | .response st body =>
    if st ≠ StatusOK then .error (.badStatus st)
    else
      match body with
      | none => .error .readBody
      | some b => .ok b

/-- C8 as stated is false: a response whose status is exactly 200 but whose
body read fails (analyzer.go lines 147-150) makes the fetch fail, so
"succeeds if and only if the status is exactly 200" does not hold in the
success direction. -/
theorem fetch_success_iff_status200_counterexample :
    fetchWebpage (FetchOutcome.response StatusOK none) = Except.error FetchErr.readBody ∧
    (fetchWebpage (FetchOutcome.response StatusOK none)).isOk = false := by
  exact ⟨rfl, rfl⟩

/-- C8, amended: the fetch succeeds iff a response was received with status
exactly 200 and its body was read successfully; any received status other
than 200 fails with the error carrying that status code; on success the raw
body text is returned. -/
theorem fetch_status_contract (st : Nat) (body : Option String) (b : String)
    (hst : st ≠ StatusOK) :
    fetchWebpage (FetchOutcome.response StatusOK (some b)) = Except.ok b ∧
    fetchWebpage (FetchOutcome.response st body) = Except.error (FetchErr.badStatus st) ∧
    (∀ o : FetchOutcome, (fetchWebpage o).isOk = true ↔
      ∃ s, o = FetchOutcome.response StatusOK (some s)) := by
  refine ⟨by simp [fetchWebpage], by simp [fetchWebpage, hst], ?_⟩
  intro o
  constructor
  · intro h
    rcases o with _ | ⟨s, body2⟩
    · simp [fetchWebpage, Except.isOk, Except.toBool] at h
    · by_cases hs : s = StatusOK
      · subst hs
        rcases body2 with _ | b2
        · simp [fetchWebpage, Except.isOk, Except.toBool] at h
        · exact ⟨b2, rfl⟩
      · simp [fetchWebpage, hs, Except.isOk, Except.toBool] at h
  · rintro ⟨s, rfl⟩
    simp [fetchWebpage, Except.isOk, Except.toBool]

/-- Witness for C8's amended theorem at status 404. -/
theorem fetch_status_contract_witness :
    fetchWebpage (FetchOutcome.response StatusOK (some "body")) = Except.ok "body" ∧
    fetchWebpage (FetchOutcome.response 404 none) = Except.error (FetchErr.badStatus 404) ∧
    (∀ o : FetchOutcome, (fetchWebpage o).isOk = true ↔
      ∃ s, o = FetchOutcome.response StatusOK (some s)) :=
  fetch_status_contract 404 none "body" (by decide)

/-! ### Analysis orchestrator (analyzer.go, `Analyze`, lines 78-113)

`parseHTML` (lines 156-162) calls `goquery.NewDocumentFromReader` over a
`strings.Reader`; the underlying `html.Parse` is error tolerant and fails
only when the reader fails, which a string reader never does, so the parse
step always succeeds and the parsed document is an oracle field of the
environment (the spec records `ParseError` as reserved and effectively
unreachable).  `cacheSetOk` models the outcome of the best-effort cache
write; it does not occur in `Analyze`'s result, exactly as in the code. -/

structure URLParts where
  scheme : String
  host : String
deriving DecidableEq, Repr

/-- `parseAndValidateURL` (analyzer.go lines 115-133) over the outcome of
`url.Parse` (`none` models a parse error). -/
def parseAndValidateURL (parsed : Option URLParts) : Except String URLParts :=
  match parsed with
  | none => .error "invalid URL"
  | some u =>
    if u.scheme == "" || u.host == "" then .error "invalid URL: missing scheme or host"
    else if u.scheme != "http" && u.scheme != "https" then
      .error ("invalid URL: unsupported scheme " ++ u.scheme)
    else .ok u

/-- The parsed document, as consumed by the analysis stages. -/
structure Doc where
  titleText : String
  headingCount : Nat → Nat
  anchors : List Anchor
  forms : List Form
  metas : List MetaElem
  linkTags : List LinkTagElem

/-- `extractPageTitle` (lines 190-193): trimmed title text. -/
def extractPageTitle (d : Doc) : String :=
  String.mk (trimSpaceChars d.titleText.toList)

/-- `countHeadings` (lines 195-205): the six keys h1..h6. -/
def countHeadings (d : Doc) : List (String × Nat) :=
  (List.range 6).map (fun i => ("h" ++ toString (i + 1), d.headingCount (i + 1)))

structure AnalyzeResponse where
  url : String
  htmlVersion : String
  title : String
  headings : List (String × Nat)
  links : LinkAnalysis
  hasLoginForm : Bool
  analyzedAt : Nat
deriving DecidableEq, Repr

/-- Outcome of `cache.Get`: an error (logged and treated as a miss), a nil
result, or a hit. -/
inductive CacheGetOutcome where
  | err
  | miss
  | hit (r : AnalyzeResponse)
deriving DecidableEq, Repr

inductive AnalyzeError where
  | invalidURL (msg : String)
  | fetchFailed (e : FetchErr)
deriving DecidableEq, Repr

/-- The oracle environment of one `Analyze` call: the cache lookup outcome,
the `url.Parse` outcome, the primary fetch outcome, the parsed document,
the map iteration order, the link budget, the probe oracle, the cache-write
outcome and the clock. -/
structure AnalyzeEnv where
  targetURL : String
  cacheGet : CacheGetOutcome
  parsedURL : Option URLParts
  fetch : FetchOutcome
  doc : Doc
  mapOrder : List (String × String)
  maxLinks : Nat
  probe : String → Bool → Bool
  cacheSetOk : Bool
  now : Nat

/-- `performWebpageAnalysis` (lines 164-188). -/
def performWebpageAnalysis (env : AnalyzeEnv) (htmlContent : String) (u : URLParts) :
    AnalyzeResponse :=
  { url := env.targetURL
    htmlVersion := detectHTMLVersion env.mapOrder htmlContent
    title := extractPageTitle env.doc
    headings := countHeadings env.doc
    links := analyzeLinks u.host env.doc.anchors env.maxLinks env.probe
    hasLoginForm := detectLoginForm env.doc.forms env.doc.metas env.doc.linkTags
    analyzedAt := env.now }

/-- The cache-miss path of `Analyze` (lines 86-112): validate, fetch, parse
(always succeeds), analyze, best-effort cache write (its outcome is not
consulted). -/
def analyzeMiss (env : AnalyzeEnv) : Except AnalyzeError AnalyzeResponse :=
  match parseAndValidateURL env.parsedURL with
  | .error m => .error (.invalidURL m)
  | .ok u =>
    match fetchWebpage env.fetch with
    | .error e => .error (.fetchFailed e)
    | .ok htmlContent => .ok (performWebpageAnalysis env htmlContent u)

/-- `Analyze` (lines 78-113): a cache error is logged and treated as a
miss; a hit returns immediately. -/
def Analyze (env : AnalyzeEnv) : Except AnalyzeError AnalyzeResponse :=
  match env.cacheGet with
  | .err => analyzeMiss env
  | .miss => analyzeMiss env
  | .hit r => .ok r

lemma analyzeMiss_error (env : AnalyzeEnv) (e : AnalyzeError)
    (h : analyzeMiss env = Except.error e) :
    (∃ m, parseAndValidateURL env.parsedURL = Except.error m ∧ e = AnalyzeError.invalidURL m) ∨
    (∃ fe, fetchWebpage env.fetch = Except.error fe ∧ e = AnalyzeError.fetchFailed fe) := by
  unfold analyzeMiss at h
  rcases hp : parseAndValidateURL env.parsedURL with m | u <;> rw [hp] at h
  · left
    refine ⟨m, rfl, ?_⟩
    simpa [eq_comm] using h
  · rcases hf : fetchWebpage env.fetch with fe | html <;> rw [hf] at h
    · right
      refine ⟨fe, rfl, ?_⟩
      simpa [eq_comm] using h
    · simp at h

lemma analyzeMiss_ok (env : AnalyzeEnv)
    (hp : (parseAndValidateURL env.parsedURL).isOk = true)
    (hf : (fetchWebpage env.fetch).isOk = true) :
    (analyzeMiss env).isOk = true := by
  rcases hp' : parseAndValidateURL env.parsedURL with m | u
  · rw [hp'] at hp
    simp [Except.isOk, Except.toBool] at hp
  · rcases hf' : fetchWebpage env.fetch with fe | html
    · rw [hf'] at hf
      simp [Except.isOk, Except.toBool] at hf
    · simp [analyzeMiss, hp', hf', Except.isOk, Except.toBool]

/-- C9: `Analyze` has exactly two terminal failure paths.  Every error it
returns comes from URL validation or from the primary fetch; whenever
validation and fetch succeed it returns a result, for every cache-read
outcome (including an error), every probe oracle (including all probes
failing) and every cache-write outcome; and a cache hit short-circuits to
the cached result. -/
theorem analyze_two_failure_paths :
    (∀(env : AnalyzeEnv) (e : AnalyzeError), Analyze env = Except.error e →
      (∃ m, parseAndValidateURL env.parsedURL = Except.error m ∧
        e = AnalyzeError.invalidURL m) ∨
      (∃ fe, fetchWebpage env.fetch = Except.error fe ∧
        e = AnalyzeError.fetchFailed fe)) ∧
    (∀ env : AnalyzeEnv, (parseAndValidateURL env.parsedURL).isOk = true →
      (fetchWebpage env.fetch).isOk = true → (Analyze env).isOk = true) ∧
    (∀ (env : AnalyzeEnv) (r : AnalyzeResponse), env.cacheGet = CacheGetOutcome.hit r →
      Analyze env = Except.ok r) := by
  refine ⟨?_, ?_, ?_⟩
  · intro env e h
    unfold Analyze at h
    rcases hc : env.cacheGet with _ | _ | r <;> rw [hc] at h
    · exact analyzeMiss_error env e h
    · exact analyzeMiss_error env e h
    · simp at h
  · intro env hp hf
    unfold Analyze
    rcases hc : env.cacheGet with _ | _ | r
    · exact analyzeMiss_ok env hp hf
    · exact analyzeMiss_ok env hp hf
    · simp [Except.isOk, Except.toBool]
  · intro env r hc
    unfold Analyze
    rw [hc]

/-- A concrete environment: cache read fails, the fetch returns 200 with a
body, every probe fails, the cache write fails — and `Analyze` still
returns a result. -/
def sampleDoc : Doc :=
  { titleText := "Example", headingCount := fun _ => 0, anchors := [], forms := [],
    metas := [], linkTags := [] }

def sampleEnv : AnalyzeEnv :=
  { targetURL := "http://example.com"
    cacheGet := CacheGetOutcome.err
    parsedURL := some { scheme := "http", host := "example.com" }
    fetch := FetchOutcome.response 200 (some "<!DOCTYPE html>")
    doc := sampleDoc
    mapOrder := simpleVersions
    maxLinks := 100
    probe := fun _ _ => false
    cacheSetOk := false
    now := 0 }

/-- Witness for C9 at `sampleEnv`. -/
theorem analyze_two_failure_paths_witness :
    (parseAndValidateURL sampleEnv.parsedURL).isOk = true ∧
    (fetchWebpage sampleEnv.fetch).isOk = true ∧
    (Analyze sampleEnv).isOk = true :=
  ⟨rfl, rfl, analyze_two_failure_paths.2.1 sampleEnv rfl rfl⟩
